import Mathlib

/-!
Verification development for the rindexer storage layer
(`rindexer_core/src/database/postgres.rs`, `generator/build.rs`,
`manifest/yaml.rs`): a shallow embedding of the type mapper, the
schema/query generator, the value codec and the transactional storage
client, together with theorems about the properties the specification
states for them.

Machine integers and the ethers fixed-width integer types are modelled
as `Nat`; Rust `Option`/`Result` become `Option`/`Except`; a Rust panic
is modelled as `Option.none` / `Except.error`.
-/

set_option maxRecDepth 4000

/-! ## String utilities -/

/-- A single-quote character, built from its code point so SQL text can
embed literal quotes. -/
def squote : String := String.mk [Char.ofNat 39]

/-- Tail-side worker for `trimArr`, operating on the reversed character
list: removes leading reversed occurrences of the pattern `[]`
(that is, a `]` immediately followed by a `[`). -/
def trimArrAux : List Char → List Char
  | [] => []
  | [c] => [c]
  | c1 :: c2 :: rest =>
    if c1 = ']' ∧ c2 = '[' then trimArrAux rest else c1 :: c2 :: rest

/-- Model of Rust `str::trim_end_matches("[]")`: repeatedly removes a
trailing `[]` suffix. -/
def trimArr (s : String) : String :=
  String.mk (trimArrAux s.data.reverse).reverse

/-- Does a reversed character list start with the reversed array
marker? -/
def endsArrRev : List Char → Bool
  | ']' :: '[' :: _ => true
  | _ => false

/-- Model of Rust `str::ends_with("[]")`. -/
def ends_with_arr (s : String) : Bool :=
  endsArrRev s.data.reverse

/-- Model of Rust `str::starts_with("bytes")`. -/
def starts_with_bytes (s : String) : Bool :=
  "bytes".data.isPrefixOf s.data

/-- Worker for `contains_arr`: does the character list contain the
substring `[]`? -/
def containsArrAux : List Char → Bool
  | '[' :: ']' :: _ => true
  | _ :: rest => containsArrAux rest
  | [] => false

/-- Model of Rust `str::contains("[]")`. -/
def contains_arr (s : String) : Bool :=
  containsArrAux s.data

/-- Modelled from the spec: `camel_to_snake` lives in `crate::helpers`,
which is not under `src/`; the spec (§3, ColumnSpec / SchemaIdentifier)
only requires a deterministic snake_case conversion, realised here as
lower-casing every character and prefixing a non-leading upper-case
character with an underscore. -/
def camel_to_snake (s : String) : String :=
  String.mk (go s.data true)
where
  go : List Char → Bool → List Char
  | [], _ => []
  | c :: rest, isFirst =>
    if c.isUpper then
      (if isFirst then [c.toLower] else ['_', c.toLower]) ++ go rest false
    else
      c :: go rest false

/-! ## Decimal rendering and parsing

Models of the `to_string`/`Display` decimal rendering of the ethers
fixed-width unsigned integers (`U64`/`U128`/`U256`/`U512` all render as
their full decimal digit string) and of parsing that text back. -/

/-- Digit list of `n` in base 10, most significant first; `fuel` bounds
the recursion and is sufficient whenever `n < 10 ^ fuel`. -/
def decDigitsF : Nat → Nat → List Nat
  | 0, _ => []
  | fuel + 1, n => if n < 10 then [n] else decDigitsF fuel (n / 10) ++ [n % 10]

/-- The character for one decimal digit. -/
def digitChar (d : Nat) : Char := Char.ofNat (48 + d)

/-- Value of a most-significant-first digit list. -/
def valOfDigits (ds : List Nat) : Nat := ds.foldl (fun a d => a * 10 + d) 0

/-- Decimal rendering of a natural number, with fuel 160 (enough for
every value below `10 ^ 160`, hence for every 64/128/256/512-bit
value). -/
def natDecString (n : Nat) : String :=
  String.mk ((decDigitsF 160 n).map digitChar)

/-- Parse one decimal digit character. -/
def charDigit (c : Char) : Option Nat :=
  if 48 ≤ c.toNat ∧ c.toNat ≤ 57 then some (c.toNat - 48) else none

/-- Parse a decimal digit string back to a natural number; `none` on an
empty string or a non-digit character. -/
def parseDecString (s : String) : Option Nat :=
  match s.data.mapM charDigit with
  | some ds => if ds.isEmpty then none else some (valOfDigits ds)
  | none => none

/-! ## Hexadecimal rendering (Debug formatting of hash/address/bytes) -/

/-- The character for one hexadecimal digit (lower case). -/
def hexDigitChar (d : Nat) : Char :=
  if d < 10 then Char.ofNat (48 + d) else Char.ofNat (87 + d)

/-- Fixed-width hexadecimal digit list, most significant first. -/
def hexDigitsF : Nat → Nat → List Char
  | 0, _ => []
  | width + 1, n => hexDigitsF width (n / 16) ++ [hexDigitChar (n % 16)]

/-- Model of the `{:?}` Debug formatting of the ethers fixed-size hash
types (`H128`/`H160`/`H256`/`H512`) and `Address`: `0x` followed by the
full-width lower-case hexadecimal digits; `bytes` is the byte width. -/
def hashDebugString (bytes : Nat) (n : Nat) : String :=
  "0x" ++ String.mk (hexDigitsF (2 * bytes) n)

/-- Model of the `{:?}` Debug formatting of ethers `Bytes`: `0x`
followed by two lower-case hexadecimal digits per byte. -/
def bytesDebugString (bs : List Nat) : String :=
  "0x" ++ String.mk (bs.flatMap (fun b => hexDigitsF 2 b))

/-! ## Type mapper: `solidity_type_to_db_type`
(`database/postgres.rs` lines 294-316).

The Rust function panics on an unsupported type; the panic is modelled
as `none`. -/

/-- The `match base_type` arm chain of `solidity_type_to_db_type`,
arms in source order. -/
def solidity_base_type_to_db_type (base_type : String) : Option String :=
  if base_type = "address" then some "CHAR(42)"
  else if base_type = "bool" then some "BOOLEAN"
  else if base_type = "int256" ∨ base_type = "uint256" then some "VARCHAR(78)"
  else if base_type = "int64" ∨ base_type = "uint64" ∨
          base_type = "int128" ∨ base_type = "uint128" then some "NUMERIC"
  else if base_type = "int32" ∨ base_type = "uint32" then some "INTEGER"
  else if base_type = "string" then some "TEXT"
  else if starts_with_bytes base_type then some "BYTEA"
  else if base_type = "uint8" ∨ base_type = "uint16" ∨
          base_type = "int8" ∨ base_type = "int16" then some "SMALLINT"
  else none

/-- `solidity_type_to_db_type`: maps a Solidity ABI type to its SQL
column type; strips every trailing `[]`, maps the base type, and appends
one `[]` when the input ended with `[]`. `none` models the
`panic!("Unsupported type {}")`. -/
def solidity_type_to_db_type (abi_type : String) : Option String :=
  let is_array := ends_with_arr abi_type
  let base_type := trimArr abi_type
  (solidity_base_type_to_db_type base_type).map
    (fun sql_type => if is_array then sql_type ++ "[]" else sql_type)

/-! ## Value codec: `EthereumSqlTypeWrapper`
(`database/postgres.rs` lines 539-915).

Payloads: the fixed-width unsigned integers and hashes are `Nat`,
`Bytes` is a byte list, the rest are the evident Lean types. -/

inductive EthereumSqlTypeWrapper where
  | U64 (v : Nat)
  | VecU64 (vs : List Nat)
  | U128 (v : Nat)
  | VecU128 (vs : List Nat)
  | U256 (v : Nat)
  | VecU256 (vs : List Nat)
  | U512 (v : Nat)
  | VecU512 (vs : List Nat)
  | H128 (v : Nat)
  | VecH128 (vs : List Nat)
  | H160 (v : Nat)
  | VecH160 (vs : List Nat)
  | H256 (v : Nat)
  | VecH256 (vs : List Nat)
  | H512 (v : Nat)
  | VecH512 (vs : List Nat)
  | Address (v : Nat)
  | VecAddress (vs : List Nat)
  | Bool (v : Bool)
  | VecBool (vs : List Bool)
  | U32 (v : Nat)
  | VecU32 (vs : List Nat)
  | U16 (v : Nat)
  | VecU16 (vs : List Nat)
  | U8 (v : Nat)
  | VecU8 (vs : List Nat)
  | String (v : String)
  | VecString (vs : List String)
  | Bytes (v : List Nat)
  | VecBytes (vs : List (List Nat))
deriving DecidableEq, Repr

/-- A scalar wire value handed to an inner `ToSql` implementation (a
real postgres-typed parameter, encoded by the driver). -/
inductive PgElem where
  | decimal (s : String)
  | text (s : String)
  | boolv (b : Bool)
  | int8v (i : Nat)
deriving DecidableEq, Repr

/-- Result of one `to_sql` call: SQL NULL (`IsNull::Yes`), raw bytes
written straight into the output buffer via `extend_from_slice`
(with `IsNull::No`), delegation to an inner scalar `ToSql`
implementation, or delegation to `Vec::to_sql` (a postgres array
parameter). -/
inductive ToSqlResult where
  | nullYes
  | rawText (s : String)
  | rawBytes (bs : List Nat)
  | param (e : PgElem)
  | paramArray (es : List PgElem)
deriving DecidableEq, Repr

/-- `EthereumSqlTypeWrapper::to_sql` (`impl ToSql`, lines 714-908):
one arm per variant, in source order. -/
def EthereumSqlTypeWrapper.to_sql : EthereumSqlTypeWrapper → ToSqlResult
  | .U64 v => .param (.decimal (natDecString v))
  | .VecU64 vs =>
    let results := vs.map (fun s => PgElem.decimal (natDecString s))
    if results.isEmpty then .nullYes else .paramArray results
  | .U128 v => .rawText (natDecString v)
  | .VecU128 vs =>
    let results := vs.map natDecString
    if results.isEmpty then .nullYes else .paramArray (results.map .text)
  | .U256 v => .rawText (natDecString v)
  | .VecU256 vs =>
    let results := vs.map natDecString
    if results.isEmpty then .nullYes else .paramArray (results.map .text)
  | .U512 v => .rawText (natDecString v)
  | .VecU512 vs =>
    let hexes := vs.map natDecString
    if hexes.isEmpty then .nullYes else .paramArray (hexes.map .text)
  | .H128 v => .rawText (hashDebugString 16 v)
  | .VecH128 vs =>
    let hexes := vs.map (hashDebugString 16)
    if hexes.isEmpty then .nullYes else .paramArray (hexes.map .text)
  | .H160 v => .rawText (hashDebugString 20 v)
  | .VecH160 vs =>
    let hexes := vs.map (hashDebugString 20)
    if hexes.isEmpty then .nullYes else .paramArray (hexes.map .text)
  | .H256 v => .rawText (hashDebugString 32 v)
  | .VecH256 vs =>
    let hexes := vs.map (hashDebugString 32)
    if hexes.isEmpty then .nullYes else .paramArray (hexes.map .text)
  | .H512 v => .rawText (hashDebugString 64 v)
  | .VecH512 vs =>
    let hexes := vs.map (hashDebugString 64)
    if hexes.isEmpty then .nullYes else .paramArray (hexes.map .text)
  | .Address v => .param (.text (hashDebugString 20 v))
  | .VecAddress vs =>
    let addresses := vs.map (hashDebugString 20)
    if addresses.isEmpty then .nullYes else .paramArray (addresses.map .text)
  | .Bool v => .param (.boolv v)
  | .VecBool vs =>
    let bools := vs.map (fun b => if b then (1 : Nat) else 0)
    if bools.isEmpty then .nullYes else .paramArray (bools.map .int8v)
  | .U16 v => .rawText (natDecString v)
  | .VecU16 vs =>
    let results := vs.map natDecString
    if results.isEmpty then .nullYes else .paramArray (results.map .text)
  | .String v => .param (.text v)
  | .VecString vs =>
    if vs.isEmpty then .nullYes else .paramArray (vs.map .text)
  | .Bytes v => .rawBytes v
  | .VecBytes vs =>
    let hexes := vs.map bytesDebugString
    if hexes.isEmpty then .nullYes else .paramArray (hexes.map .text)
  | .U32 v => .rawText (natDecString v)
  | .VecU32 vs =>
    let results := vs.map natDecString
    if results.isEmpty then .nullYes else .paramArray (results.map .text)
  | .U8 v => .rawText (natDecString v)
  | .VecU8 vs =>
    let results := vs.map natDecString
    if results.isEmpty then .nullYes else .paramArray (results.map .text)

/-- The `Vec*` variants of the codec. -/
def ethWrapperIsArrayVariant : EthereumSqlTypeWrapper → Bool
  | .VecU64 _ | .VecU128 _ | .VecU256 _ | .VecU512 _
  | .VecH128 _ | .VecH160 _ | .VecH256 _ | .VecH512 _
  | .VecAddress _ | .VecBool _ | .VecU32 _ | .VecU16 _
  | .VecU8 _ | .VecString _ | .VecBytes _ => true
  | _ => false

/-- Is the payload of an array variant the empty list? (`false` for
every scalar variant.) -/
def ethWrapperArrayPayloadIsEmpty : EthereumSqlTypeWrapper → Bool
  | .VecU64 vs | .VecU128 vs | .VecU256 vs | .VecU512 vs
  | .VecH128 vs | .VecH160 vs | .VecH256 vs | .VecH512 vs
  | .VecAddress vs | .VecU32 vs | .VecU16 vs | .VecU8 vs => vs.isEmpty
  | .VecBool vs => vs.isEmpty
  | .VecString vs => vs.isEmpty
  | .VecBytes vs => vs.isEmpty
  | _ => false

/-! ## Type mapper: `solidity_type_to_ethereum_sql_type_wrapper`
(`database/postgres.rs` lines 622-682).

The source returns wrapper variants carrying static default payloads
(`U256::zero()`, empty vectors, ...); those defaults are reproduced
here. -/

def solidity_type_to_ethereum_sql_type_wrapper
    (abi_type : String) : Option EthereumSqlTypeWrapper :=
  if abi_type = "string" then some (.String "")
  else if abi_type = "string[]" then some (.VecString [])
  else if abi_type = "address" then some (.Address 0)
  else if abi_type = "address[]" then some (.VecAddress [])
  else if abi_type = "bool" then some (.Bool false)
  else if abi_type = "bool[]" then some (.VecBool [])
  else if abi_type = "int256" ∨ abi_type = "uint256" then some (.U256 0)
  else if abi_type = "int256[]" ∨ abi_type = "uint256[]" then some (.VecU256 [])
  else if abi_type = "int128" ∨ abi_type = "uint128" then some (.U128 0)
  else if abi_type = "int128[]" ∨ abi_type = "uint128[]" then some (.VecU128 [])
  else if abi_type = "int64" ∨ abi_type = "uint64" then some (.U64 0)
  else if abi_type = "int64[]" ∨ abi_type = "uint64[]" then some (.VecU64 [])
  else if abi_type = "int32" ∨ abi_type = "uint32" then some (.U32 0)
  else if abi_type = "int32[]" ∨ abi_type = "uint32[]" then some (.VecU32 [])
  else if abi_type = "int16" ∨ abi_type = "uint16" then some (.U16 0)
  else if abi_type = "int16[]" ∨ abi_type = "uint16[]" then some (.VecU16 [])
  else if abi_type = "int8" ∨ abi_type = "uint8" then some (.U8 0)
  else if abi_type = "int8[]" ∨ abi_type = "uint8[]" then some (.VecU8 [])
  else if starts_with_bytes abi_type ∧ contains_arr abi_type then
    some (.VecBytes [])
  else if starts_with_bytes abi_type then some (.Bytes [])
  else none

/-- The base types the `match` in `solidity_type_to_db_type` names
explicitly (everything supported except the `bytes*` family). -/
def nonBytesBaseTypes : List String :=
  ["address", "bool", "int256", "uint256", "int64", "uint64",
   "int128", "uint128", "int32", "uint32", "string",
   "uint8", "uint16", "int8", "int16"]

/-! ## Manifest data model (`manifest/yaml.rs`)

`FilterDetails` and `IndexingContractSetup` live in
`generator/event_callback_registry.rs`, which is not under `src/`;
they are modelled from the spec (§3, ContractNetworkBinding:
"Filter mode: an event name plus up to 3 indexed-parameter match
values"), with field names as used by the `yaml.rs` tests.
`FactoryDetails`' fields are visible in the `yaml.rs` tests. -/

structure FilterDetails where
  event_name : String
  indexed_1 : Option String
  indexed_2 : Option String
  indexed_3 : Option String
deriving DecidableEq, Repr

structure FactoryDetails where
  address : String
  event_name : String
  parameter_name : String
  abi : String
deriving DecidableEq, Repr

/-- Modelled from the spec: the discovery-mode value of one network
binding (§3: "exactly one discovery mode value"). -/
inductive IndexingContractSetup where
  | address (a : String)
  | factory (f : FactoryDetails)
  | filter (f : FilterDetails)
deriving DecidableEq, Repr

/-- Modelled from the spec: `IndexingContractSetup::is_filter` lives in
`generator/event_callback_registry.rs`, not under `src/`; the spec (§3)
treats filter-mode and factory-mode bindings alike ("If any binding
uses a filter/factory mode, the contract's effective name is
suffixed"), so both count as filter-like here. -/
def IndexingContractSetup.is_filter : IndexingContractSetup → Bool
  | .address _ => false
  | .factory _ => true
  | .filter _ => true

/-- `ContractDetails` (`manifest/yaml.rs` lines 40-60); block numbers
and the polling interval are modelled as `Nat`. -/
structure ContractDetails where
  network : String
  address : Option String
  filter : Option FilterDetails
  factory : Option FactoryDetails
  start_block : Option Nat
  end_block : Option Nat
  polling_every : Option Nat
deriving DecidableEq, Repr

/-- `ContractDetails::indexing_contract_setup` (`yaml.rs` lines 62-71):
address wins over factory, factory over filter; the
`self.filter.clone().unwrap()` panic when no mode is set is modelled
as `none`. -/
def ContractDetails.indexing_contract_setup
    (d : ContractDetails) : Option IndexingContractSetup :=
  match d.address with
  | some a => some (.address a)
  | none =>
    match d.factory with
    | some f => some (.factory f)
    | none => d.filter.map .filter

/-- `Contract` (`manifest/yaml.rs` lines 146-160). -/
structure Contract where
  name : String
  details : List ContractDetails
  abi : String
  include_events : Option (List String)
  reorg_safe_distance : Bool
  generate_csv : Bool
deriving DecidableEq, Repr

/-- `Indexer` (`manifest/yaml.rs` lines 32-37). -/
structure Indexer where
  name : String
  contracts : List Contract
deriving DecidableEq, Repr

/-! ## Event descriptors

`ABIInput`/`EventInfo` and the functions reading them from the ABI file
live in `generator/events_bindings.rs`, not under `src/`; they are
modelled from the spec (§3, EventDescriptor: "event name + ordered list
of typed input parameters (name, interface type string, indexed
flag)"). -/

structure ABIInput where
  name : String
  ty : String
  indexed : Bool
deriving DecidableEq, Repr

structure EventInfo where
  name : String
  inputs : List ABIInput
deriving DecidableEq, Repr

/-! ## `generator/build.rs`: filter identification -/

/-- The `filter_count` computation of `identify_filter` (`build.rs`
lines 81-85): counts details whose discovery mode is filter-like;
`none` models the panic from `indexing_contract_setup`'s unwrap when a
detail has no discovery mode. -/
def countFilterDetails : List ContractDetails → Option Nat
  | [] => some 0
  | d :: rest =>
    match d.indexing_contract_setup with
    | none => none
    | some s =>
      (countFilterDetails rest).map
        (fun n => if s.is_filter then n + 1 else n)

/-- `identify_filter` (`build.rs` lines 80-97): returns the (possibly
renamed) contract together with the filter flag; `Except.error` models
the two panics (the mix-and-match panic and the unwrap on a detail
without a discovery mode). -/
def identify_filter (contract : Contract) : Except String (Contract × Bool) :=
  match countFilterDetails contract.details with
  | none => .error "Option unwrap on a None value"
  | some filter_count =>
    if filter_count > 0 ∧ filter_count ≠ contract.details.length then
      .error "Cannot mix and match address and filter for the same contract definition."
    else if filter_count > 0 then
      .ok ({ contract with name := contract.name ++ "Filter" }, true)
    else
      .ok (contract, false)

/-- Modelled from the spec: `is_filter` (the contract-level predicate
imported by `postgres.rs` from `generator::build`) is not under
`src/`; per the spec (§3) a contract is filter-like when any of its
bindings uses a filter/factory mode. -/
def is_filter (contract : Contract) : Bool :=
  contract.details.any (fun d =>
    match d.indexing_contract_setup with
    | some s => s.is_filter
    | none => false)

/-- Modelled from the spec: `contract_name_to_filter_name` (imported by
`postgres.rs` from `generator::build`) is not under `src/`; consistent
with `identify_filter`'s `format!("{}Filter", contract.name)`, it
appends the "Filter" marker (§3). -/
def contract_name_to_filter_name (name : String) : String :=
  name ++ "Filter"

/-! ## Schema/query generator (`database/postgres.rs` lines 328-537) -/

/-- Model of Rust `Vec::join(sep)` on strings. -/
def joinSep (sep : String) : List String → String
  | [] => ""
  | [s] => s
  | s :: rest => s ++ sep ++ joinSep sep rest

/-- Modelled from the spec: `generate_abi_name_properties` (in
`generator/events_bindings.rs`, not under `src/`) with the
`PostgresWithDataTypes` property type; per the spec (§3, ColumnSpec) a
column is the snake_case parameter name followed by its column type
declaration. The `"UNSUPPORTED"` placeholder stands for the panic of
`solidity_type_to_db_type` on an unsupported type and is never produced
for a supported indexer. -/
def generate_columns_with_data_types (inputs : List ABIInput) : List String :=
  inputs.map (fun i =>
    camel_to_snake i.name ++ " " ++ (solidity_type_to_db_type i.ty).getD "UNSUPPORTED")

/-- Modelled from the spec: `generate_abi_name_properties` with the
`PostgresColumnsNamesOnly` property type; per the spec (§3) the column
name is the snake_case of the parameter name. -/
def generate_columns_names_only (inputs : List ABIInput) : List String :=
  inputs.map (fun i => camel_to_snake i.name)

/-- `indexer_contract_schema_name` (`postgres.rs` lines 438-444). -/
def indexer_contract_schema_name (indexer_name contract_name : String) : String :=
  camel_to_snake indexer_name ++ "_" ++ camel_to_snake contract_name

/-- The event-table SQL for one event (the closure body inside
`generate_event_table_sql`, `postgres.rs` lines 374-389). -/
def event_table_sql (schema_name : String) (event_info : EventInfo) : String :=
  let table_name := schema_name ++ "." ++ camel_to_snake event_info.name
  "CREATE TABLE IF NOT EXISTS " ++ table_name ++
  " (rindexer_id SERIAL PRIMARY KEY, contract_address CHAR(66), " ++
  joinSep ", " (generate_columns_with_data_types event_info.inputs) ++
  ", tx_hash CHAR(66), block_number NUMERIC, block_hash CHAR(66));"

/-- `generate_event_table_sql` (`postgres.rs` lines 371-392). -/
def generate_event_table_sql
    (abi_inputs : List EventInfo) (schema_name : String) : String :=
  joinSep "\n" (abi_inputs.map (event_table_sql schema_name))

/-- The checkpoint-table name used by
`generate_internal_event_table_sql` (`postgres.rs` lines 414-418). -/
def internal_table_name (schema_name : String) (event_info : EventInfo) : String :=
  "rindexer_internal." ++ schema_name ++ "_" ++ camel_to_snake event_info.name

/-- The checkpoint-table creation SQL for one event (`postgres.rs`
lines 420-423). -/
def internal_create_table_query (table_name : String) : String :=
  "CREATE TABLE IF NOT EXISTS " ++ table_name ++
  " (\"network\" TEXT PRIMARY KEY, \"last_synced_block\" NUMERIC);"

/-- The seed-insert SQL for one network (`postgres.rs` lines 425-431). -/
def internal_insert_query (table_name network : String) : String :=
  "INSERT INTO " ++ table_name ++
  " (\"network\", \"last_synced_block\") VALUES (" ++
  squote ++ network ++ squote ++
  ", 0) ON CONFLICT (\"network\") DO NOTHING;"

/-- `generate_internal_event_table_sql` (`postgres.rs` lines 408-435). -/
def generate_internal_event_table_sql
    (abi_inputs : List EventInfo) (schema_name : String)
    (networks : List String) : String :=
  joinSep "\n" (abi_inputs.map (fun event_info =>
    let table_name := internal_table_name schema_name event_info
    let create_table_query := internal_create_table_query table_name
    let insert_queries :=
      joinSep "\n" (networks.map (internal_insert_query table_name))
    create_table_query ++ "\n" ++ insert_queries))

/-- The per-contract body of the `for contract in &indexer.contracts`
loop of `create_tables_for_indexer_sql` (`postgres.rs` lines 460-481).
`abi_events` is the ABI collaborator: it stands for
`read_abi_items` followed by `extract_event_names_and_signatures_from_abi`
(both in `generator/`, not under `src/`; the spec (§1, §6) consumes them
as "a typed list of events with typed, possibly-array input
parameters"); `none` models either step returning `Err`, in which case
the contract contributes nothing. -/
def contract_tables_sql (abi_events : Contract → Option (List EventInfo))
    (indexer_name : String) (contract : Contract) : String :=
  let contract_name :=
    if is_filter contract then contract_name_to_filter_name contract.name
    else contract.name
  match abi_events contract with
  | none => ""
  | some event_names =>
    let schema_name := indexer_contract_schema_name indexer_name contract_name
    let networks := contract.details.map (fun d => d.network)
    "CREATE SCHEMA IF NOT EXISTS " ++ schema_name ++ ";" ++
    generate_event_table_sql event_names schema_name ++
    generate_internal_event_table_sql event_names schema_name networks

/-- `create_tables_for_indexer_sql` (`postgres.rs` lines 457-485). -/
def create_tables_for_indexer_sql (abi_events : Contract → Option (List EventInfo))
    (indexer : Indexer) : String :=
  indexer.contracts.foldl
    (fun sql contract => sql ++ contract_tables_sql abi_events indexer.name contract)
    "CREATE SCHEMA IF NOT EXISTS rindexer_internal;"

/-- `generate_injected_param` (`postgres.rs` lines 515-521):
`VALUES($1, $2, ..., $count)`. -/
def generate_injected_param (count : Nat) : String :=
  let params :=
    joinSep ", " ((List.range count).map (fun i => "$" ++ Nat.repr (i + 1)))
  "VALUES(" ++ params ++ ")"

/-- `generated_insert_query_for_event` (`postgres.rs` lines 523-537). -/
def generated_insert_query_for_event
    (event_info : EventInfo) (indexer_name contract_name : String) : String :=
  let columns := generate_columns_names_only event_info.inputs
  let schema_name := indexer_contract_schema_name indexer_name contract_name
  "INSERT INTO " ++ schema_name ++ "." ++ camel_to_snake event_info.name ++
  " (contract_address, " ++ joinSep ", " columns ++
  ", \"tx_hash\", \"block_number\", \"block_hash\") " ++
  generate_injected_param (4 + columns.length)

/-! ## Statement-level view of the generated DDL

Each generated DDL statement as an abstract syntax value, with a
renderer reproducing the exact SQL text of the string generator.  The
statement-level generator mirrors the control flow of
`create_tables_for_indexer_sql` statement by statement; the theorems
link it to the string generator by showing the generated text is the
renders of these statements in order (with newline separators). -/

inductive SqlStmt where
  | createSchema (name : String)
  | createEventTable (schema_name table_name : String) (event_columns : List String)
  | createCheckpointTable (table_name : String)
  | seedCheckpoint (table_name network : String)
deriving DecidableEq, Repr

/-- The SQL text of one statement (exactly the text the string
generator produces for it). -/
def renderStmt : SqlStmt → String
  | .createSchema name => "CREATE SCHEMA IF NOT EXISTS " ++ name ++ ";"
  | .createEventTable schema_name table_name event_columns =>
    "CREATE TABLE IF NOT EXISTS " ++ schema_name ++ "." ++ table_name ++
    " (rindexer_id SERIAL PRIMARY KEY, contract_address CHAR(66), " ++
    joinSep ", " event_columns ++
    ", tx_hash CHAR(66), block_number NUMERIC, block_hash CHAR(66));"
  | .createCheckpointTable table_name => internal_create_table_query table_name
  | .seedCheckpoint table_name network => internal_insert_query table_name network

/-- The event-table statement for one event. -/
def event_table_stmt (schema_name : String) (event_info : EventInfo) : SqlStmt :=
  .createEventTable schema_name (camel_to_snake event_info.name)
    (generate_columns_with_data_types event_info.inputs)

/-- The checkpoint-table statement and seed inserts for one event, in
the order `generate_internal_event_table_sql` emits them. -/
def internal_event_stmts (schema_name : String) (networks : List String)
    (event_info : EventInfo) : List SqlStmt :=
  .createCheckpointTable (internal_table_name schema_name event_info) ::
    networks.map (SqlStmt.seedCheckpoint (internal_table_name schema_name event_info))

/-- The statements `contract_tables_sql` emits for one contract, in
emission order: the contract schema, then every event table, then per
event its checkpoint table followed by its seed inserts. -/
def contract_tables_stmts (abi_events : Contract → Option (List EventInfo))
    (indexer_name : String) (contract : Contract) : List SqlStmt :=
  let contract_name :=
    if is_filter contract then contract_name_to_filter_name contract.name
    else contract.name
  match abi_events contract with
  | none => []
  | some event_names =>
    let schema_name := indexer_contract_schema_name indexer_name contract_name
    let networks := contract.details.map (fun d => d.network)
    .createSchema schema_name ::
      (event_names.map (event_table_stmt schema_name) ++
       event_names.flatMap (internal_event_stmts schema_name networks))

/-- The statements `create_tables_for_indexer_sql` emits, in emission
order. -/
def create_tables_stmts (abi_events : Contract → Option (List EventInfo))
    (indexer : Indexer) : List SqlStmt :=
  .createSchema "rindexer_internal" ::
    indexer.contracts.flatMap (contract_tables_stmts abi_events indexer.name)

/-- The statement order the specification describes (§4.2 / claim C6):
per contract the schema statement, then **per event** that event's
event-table statement immediately followed by that event's
checkpoint-table statement and seed inserts.  This definition follows
the spec's words; it is compared against `create_tables_stmts`, which
follows the source. -/
def spec_interleaved_stmts (abi_events : Contract → Option (List EventInfo))
    (indexer : Indexer) : List SqlStmt :=
  .createSchema "rindexer_internal" ::
    indexer.contracts.flatMap (fun contract =>
      let contract_name :=
        if is_filter contract then contract_name_to_filter_name contract.name
        else contract.name
      match abi_events contract with
      | none => []
      | some event_names =>
        let schema_name := indexer_contract_schema_name indexer.name contract_name
        let networks := contract.details.map (fun d => d.network)
        .createSchema schema_name ::
          event_names.flatMap (fun event_info =>
            event_table_stmt schema_name event_info ::
              internal_event_stmts schema_name networks event_info))

/-- Removes every newline character; the generated script separates
statements only by newlines (or nothing), so the newline-stripped
script is exactly the concatenation of the statement renders. -/
def stripNL (s : String) : String :=
  String.mk (s.data.filter (fun c => c ≠ Char.ofNat 10))

/-- Concatenation of the renders of a statement list. -/
def renderedScript (stmts : List SqlStmt) : String :=
  String.join (stmts.map renderStmt)

/-! ## Database-state semantics of the generated DDL

A small semantics for the three statement forms the generator uses
(`CREATE SCHEMA IF NOT EXISTS`, `CREATE TABLE IF NOT EXISTS`,
`INSERT ... ON CONFLICT DO NOTHING`): each statement only ensures its
object exists and is a no-op when it already does, mirroring Postgres
behaviour. -/

/-- The full column list of an event table: the fixed prefix, the event
columns, the fixed suffix. -/
def eventTableColumns (event_columns : List String) : List String :=
  "rindexer_id SERIAL PRIMARY KEY" :: "contract_address CHAR(66)" ::
    (event_columns ++
      ["tx_hash CHAR(66)", "block_number NUMERIC", "block_hash CHAR(66)"])

/-- The column list of a checkpoint table. -/
def checkpointColumns : List String :=
  ["\"network\" TEXT PRIMARY KEY", "\"last_synced_block\" NUMERIC"]

/-- Database state: created schemas, created tables (qualified name and
columns), and checkpoint rows keyed by (table, network). -/
structure DbState where
  schemas : List String
  tables : List (String × List String)
  checkpoints : List ((String × String) × Nat)
deriving DecidableEq, Repr

def emptyDb : DbState := { schemas := [], tables := [], checkpoints := [] }

/-- Does the object a statement would create already exist? -/
def stmtEstablished (s : DbState) : SqlStmt → Bool
  | .createSchema name => decide (name ∈ s.schemas)
  | .createEventTable schema_name table_name _ =>
    decide (schema_name ++ "." ++ table_name ∈ s.tables.map Prod.fst)
  | .createCheckpointTable table_name =>
    decide (table_name ∈ s.tables.map Prod.fst)
  | .seedCheckpoint table_name network =>
    decide ((table_name, network) ∈ s.checkpoints.map Prod.fst)

/-- Effect of one statement: create the object unless it exists
(`IF NOT EXISTS` / `ON CONFLICT DO NOTHING`); seeds insert the value
0. -/
def applyStmt (s : DbState) (c : SqlStmt) : DbState :=
  if stmtEstablished s c then s
  else
    match c with
    | .createSchema name => { s with schemas := s.schemas ++ [name] }
    | .createEventTable schema_name table_name event_columns =>
      { s with tables :=
          s.tables ++ [(schema_name ++ "." ++ table_name,
                        eventTableColumns event_columns)] }
    | .createCheckpointTable table_name =>
      { s with tables := s.tables ++ [(table_name, checkpointColumns)] }
    | .seedCheckpoint table_name network =>
      { s with checkpoints := s.checkpoints ++ [((table_name, network), 0)] }

/-- Effect of a statement list, first statement first. -/
def applyStmts (s : DbState) (stmts : List SqlStmt) : DbState :=
  stmts.foldl applyStmt s

/-! ## Storage client: `batch_insert`
(`database/postgres.rs` lines 226-254).

The transaction semantics of the client library are modelled
explicitly: `BEGIN` snapshots the visible state, every statement
executes against the transaction's pending state, `COMMIT` publishes
the pending state, and dropping the transaction without commit (which
is what the `?` early return does) rolls back, leaving the pre-call
state visible.  States, parameter sets and database errors are
abstract types; `exec` is the effect of executing the prepared
statement once with one parameter set. -/

inductive TxEvent (π : Type) where
  | beginTx
  | exec (p : π)
  | commit
deriving DecidableEq, Repr

/-- The `for params in params_list` loop: executes the statement once
per parameter set, in input order, against the pending state; stops at
the first error (the `?` operator).  Also returns the trace of
executions performed. -/
def txLoop {σ π ε : Type} (exec : σ → π → Except ε σ) :
    List π → σ → Except ε σ × List (TxEvent π)
  | [], s => (.ok s, [])
  | p :: ps, s =>
    match exec s p with
    | .ok s2 =>
      let r := txLoop exec ps s2
      (r.1, .exec p :: r.2)
    | .error e => (.error e, [.exec p])

/-- `PostgresClient::batch_insert`: one transaction; the statement runs
once per parameter set in input order; commit only when every execution
succeeded, otherwise the error is surfaced and the visible state is the
pre-call state.  Returns (result, visible state after the call, event
trace). -/
def batch_insert {σ π ε : Type} (exec : σ → π → Except ε σ)
    (s : σ) (params_list : List π) :
    Except ε Unit × σ × List (TxEvent π) :=
  let r := txLoop exec params_list s
  match r.1 with
  | .ok s2 => (.ok (), s2, .beginTx :: r.2 ++ [.commit])
  | .error e => (.error e, s, .beginTx :: r.2)

/-- Reference description of a fully successful batch: the sequential
effect of every parameter set in input order, `none` when any execution
fails. -/
def applyAllOk {σ π ε : Type} (exec : σ → π → Except ε σ) :
    List π → σ → Option σ
  | [], s => some s
  | p :: ps, s =>
    match exec s p with
    | .ok s2 => applyAllOk exec ps s2
    | .error _ => none

/-- Is a trace event the transaction opening? -/
def isBeginTx {π : Type} : TxEvent π → Bool
  | .beginTx => true
  | _ => false

/-- Is a trace event a statement execution? -/
def isExecEvent {π : Type} : TxEvent π → Bool
  | .exec _ => true
  | _ => false

/-! ## Concrete fixtures used by witnesses and counterexamples -/

/-- `k` copies of the array marker `[]` as characters. -/
def arrMarkers : Nat → List Char
  | 0 => []
  | k + 1 => '[' :: ']' :: arrMarkers k

/-- `s` with `k` trailing array markers appended. -/
def appendArrMarkers (s : String) (k : Nat) : String :=
  String.mk (s.data ++ arrMarkers k)

/-- A statement effect for exercising `batch_insert`: parameter 0
violates a constraint (fails), any other parameter adds itself to the
state. -/
def execAddPos : Nat → Nat → Except Nat Nat :=
  fun s p => if p = 0 then .error 7 else .ok (s + p)

/-- The spec's concrete `Transfer(address from, address to, uint256
value)` event. -/
def transferEvent : EventInfo :=
  { name := "Transfer",
    inputs := [{ name := "from", ty := "address", indexed := true },
               { name := "to", ty := "address", indexed := true },
               { name := "value", ty := "uint256", indexed := false }] }

/-- A second event on the same contract. -/
def approvalEvent : EventInfo :=
  { name := "Approval",
    inputs := [{ name := "owner", ty := "address", indexed := true },
               { name := "spender", ty := "address", indexed := true },
               { name := "value", ty := "uint256", indexed := false }] }

/-- An address-mode network binding. -/
def addressDetail : ContractDetails :=
  { network := "ethereum", address := some "0xAAAA", filter := none,
    factory := none, start_block := none, end_block := none,
    polling_every := none }

/-- An address-mode contract named `Token`. -/
def tokenContract : Contract :=
  { name := "Token", details := [addressDetail], abi := "./abis/token.json",
    include_events := none, reorg_safe_distance := false,
    generate_csv := false }

/-- An indexer with one contract. -/
def twoEventIndexer : Indexer :=
  { name := "MyIndexer", contracts := [tokenContract] }

/-- ABI collaborator returning two events for every contract. -/
def twoEventAbi : Contract → Option (List EventInfo) :=
  fun _ => some [transferEvent, approvalEvent]

/-- A filter-mode network binding. -/
def filterModeDetail : ContractDetails :=
  { network := "ethereum", address := none,
    filter := some { event_name := "Transfer", indexed_1 := none,
                     indexed_2 := none, indexed_3 := none },
    factory := none, start_block := none, end_block := none,
    polling_every := none }

/-- A factory-mode network binding. -/
def factoryModeDetail : ContractDetails :=
  { network := "base", address := none, filter := none,
    factory := some { address := "0xFFFF", event_name := "PairCreated",
                      parameter_name := "pair", abi := "[]" },
    start_block := none, end_block := none, polling_every := none }

/-- A contract mixing a filter-mode binding and a factory-mode binding:
two different discovery modes on one contract. -/
def mixedModeContract : Contract :=
  { name := "Token", details := [filterModeDetail, factoryModeDetail],
    abi := "./abis/token.json", include_events := none,
    reorg_safe_distance := false, generate_csv := false }

/-- A contract whose single binding is filter-mode. -/
def allFilterContract : Contract :=
  { name := "Token", details := [filterModeDetail],
    abi := "./abis/token.json", include_events := none,
    reorg_safe_distance := false, generate_csv := false }

/-- `k` copies of the reversed array marker, head side. -/
def revMarkers : Nat → List Char
  | 0 => []
  | k + 1 => ']' :: '[' :: revMarkers k

/-- A contract mixing an address-mode binding and a filter-mode
binding. -/
def mixedAddressFilterContract : Contract :=
  { name := "Token", details := [addressDetail, filterModeDetail],
    abi := "./abis/token.json", include_events := none,
    reorg_safe_distance := false, generate_csv := false }

/-- Spec-side description of a filter-like binding: its discovery mode
is filter or factory (`false` when no mode is set). -/
def detailIsFilterLike (d : ContractDetails) : Bool :=
  match d.indexing_contract_setup with
  | some s => s.is_filter
  | none => false

/-- Newline-stripped character data of a string.  The generated script
separates statements only by newlines (or nothing), so its
newline-stripped data is the concatenation of the statement renders'
newline-stripped data. -/
def stripData (s : String) : List Char :=
  s.data.filter (fun c => c ≠ Char.ofNat 10)

/-- Newline-stripped render of one statement. -/
def stmtStrip (c : SqlStmt) : List Char :=
  stripData (renderStmt c)

/-- Concatenated newline-stripped renders of a statement list. -/
def scriptStrip (stmts : List SqlStmt) : List Char :=
  (stmts.map stmtStrip).join

/-! # Theorems -/

/-! ## Helper lemmas: decimal rendering and parsing -/

theorem valOfDigits_append_digit (ds : List Nat) (d : Nat) :
    valOfDigits (ds ++ [d]) = valOfDigits ds * 10 + d := by
  simp [valOfDigits, List.foldl_append]

theorem valOfDigits_decDigitsF (fuel : Nat) :
    ∀ n, n < 10 ^ fuel → valOfDigits (decDigitsF fuel n) = n := by
  induction fuel with
  | zero =>
    intro n h
    interval_cases n
    simp [decDigitsF, valOfDigits]
  | succ f ih =>
    intro n h
    by_cases h10 : n < 10
    · simp [decDigitsF, h10, valOfDigits]
    · have hdiv : n / 10 < 10 ^ f := by
        rw [Nat.div_lt_iff_lt_mul (by omega)]
        calc n < 10 ^ (f + 1) := h
          _ = 10 ^ f * 10 := by ring
      simp only [decDigitsF, if_neg h10, valOfDigits_append_digit, ih _ hdiv]
      omega

theorem decDigitsF_ne_nil (fuel n : Nat) (h : 0 < fuel) :
    decDigitsF fuel n ≠ [] := by
  cases fuel with
  | zero => omega
  | succ f =>
    by_cases h10 : n < 10 <;> simp [decDigitsF, h10]

theorem decDigitsF_lt_ten (fuel : Nat) :
    ∀ n, ∀ d ∈ decDigitsF fuel n, d < 10 := by
  induction fuel with
  | zero => intro n d hd; simp [decDigitsF] at hd
  | succ f ih =>
    intro n d hd
    by_cases h10 : n < 10
    · simp [decDigitsF, h10] at hd; omega
    · simp only [decDigitsF, if_neg h10, List.mem_append, List.mem_singleton] at hd
      rcases hd with hd | hd
      · exact ih _ _ hd
      · omega

theorem charDigit_digitChar (d : Nat) (h : d < 10) :
    charDigit (digitChar d) = some d := by
  interval_cases d <;> decide

theorem mapM_charDigit_map_digitChar (ds : List Nat) (h : ∀ d ∈ ds, d < 10) :
    (ds.map digitChar).mapM charDigit = some ds := by
  induction ds with
  | nil => rfl
  | cons d rest ih =>
    simp only [List.map_cons, List.mapM_cons,
      charDigit_digitChar d (h d (by simp)),
      ih (fun x hx => h x (by simp [hx]))]
    rfl

theorem parseDecString_natDecString (n : Nat) (h : n < 10 ^ 160) :
    parseDecString (natDecString n) = some n := by
  unfold parseDecString natDecString
  have hdata : (String.mk ((decDigitsF 160 n).map digitChar)).data =
      (decDigitsF 160 n).map digitChar := rfl
  rw [hdata, mapM_charDigit_map_digitChar _ (decDigitsF_lt_ten 160 n)]
  have hne : decDigitsF 160 n ≠ [] := decDigitsF_ne_nil 160 n (by omega)
  simp [List.isEmpty_iff, hne, valOfDigits_decDigitsF 160 n h]

/-! ## Claim C8 -/

/-- C8: for every 256-bit unsigned value, `to_sql` on the `U256`
variant writes the full decimal digit string of the value raw into the
output buffer, and parsing that text back yields the original value
exactly. -/
theorem C8_u256_roundtrip (n : Nat) (h : n < 2 ^ 256) :
    EthereumSqlTypeWrapper.to_sql (.U256 n) = .rawText (natDecString n) ∧
    parseDecString (natDecString n) = some n := by
  refine ⟨rfl, parseDecString_natDecString n ?_⟩
  calc n < 2 ^ 256 := h
    _ ≤ 10 ^ 160 := by norm_num

/-- Witness for C8 at the maximum 256-bit value `2^256 - 1` (and the
round trip also checked at 0 and 1 through the same theorem). -/
theorem C8_u256_roundtrip_witness :
    ((2 : Nat) ^ 256 - 1 < 2 ^ 256 ∧
      parseDecString (natDecString (2 ^ 256 - 1)) = some (2 ^ 256 - 1)) ∧
    parseDecString (natDecString 0) = some 0 ∧
    parseDecString (natDecString 1) = some 1 := by
  refine ⟨⟨by norm_num, (C8_u256_roundtrip (2 ^ 256 - 1) (by norm_num)).2⟩,
    (C8_u256_roundtrip 0 (by norm_num)).2, (C8_u256_roundtrip 1 (by norm_num)).2⟩

/-! ## Claim C4 -/

/-- C4: for every array variant of the value codec, an empty payload
encodes as SQL NULL (`IsNull::Yes`), never as an empty array literal;
a non-empty payload is delegated to the driver as an array
parameter. -/
theorem C4_empty_array_encodes_null (w : EthereumSqlTypeWrapper)
    (h : ethWrapperIsArrayVariant w = true) :
    (ethWrapperArrayPayloadIsEmpty w = true →
      w.to_sql = ToSqlResult.nullYes) ∧
    (ethWrapperArrayPayloadIsEmpty w = false →
      ∃ es, w.to_sql = ToSqlResult.paramArray es) := by
  cases w <;>
    first
      | exact Bool.noConfusion h
      | (rename_i vs
         refine ⟨fun h2 => ?_, fun h2 => ?_⟩ <;> cases vs with
         | nil => first | rfl | exact Bool.noConfusion h2
         | cons a l => first | exact ⟨_, rfl⟩ | exact Bool.noConfusion h2)

/-- Witness for C4: the `VecU256` variant with an empty payload encodes
as NULL, and with payload `[1]` as an array parameter. -/
theorem C4_empty_array_encodes_null_witness :
    ethWrapperIsArrayVariant (.VecU256 []) = true ∧
    EthereumSqlTypeWrapper.to_sql (.VecU256 []) = ToSqlResult.nullYes ∧
    (∃ es, EthereumSqlTypeWrapper.to_sql (.VecU256 [1]) =
      ToSqlResult.paramArray es) :=
  ⟨rfl, (C4_empty_array_encodes_null (.VecU256 []) rfl).1 rfl,
    (C4_empty_array_encodes_null (.VecU256 [1]) rfl).2 rfl⟩

/-! ## Claim C7 -/

/-- C7 (code evaluation): the code encodes the 8/16/32-bit scalar
variants by writing their ASCII decimal text raw into the output
buffer (`to_string` + `extend_from_slice`), not as the native binary
smallint/integer wire value; only the boolean variant delegates to the
native encoder (`bool::to_sql`) — even though the same file's column
mapping declares `uint8`/`uint16` as `SMALLINT` and `uint32` as
`INTEGER`. -/
theorem C7_small_scalars_written_as_text :
    EthereumSqlTypeWrapper.to_sql (.U8 7) = ToSqlResult.rawText "7" ∧
    EthereumSqlTypeWrapper.to_sql (.U16 7) = ToSqlResult.rawText "7" ∧
    EthereumSqlTypeWrapper.to_sql (.U32 7) = ToSqlResult.rawText "7" ∧
    EthereumSqlTypeWrapper.to_sql (.Bool true) =
      ToSqlResult.param (.boolv true) ∧
    solidity_type_to_db_type "uint8" = some "SMALLINT" ∧
    solidity_type_to_db_type "uint32" = some "INTEGER" := by
  refine ⟨?_, ?_, ?_, rfl, ?_, ?_⟩ <;> decide

/-! ## Claim C3 -/

/-- C3: the generated insert statement lists `contract_address`, then
the event columns in ABI order, then `tx_hash`, `block_number`,
`block_hash`, and carries exactly `1 + n + 3` positional placeholders
numbered contiguously from `$1`. -/
theorem C3_insert_statement_shape (event_info : EventInfo)
    (indexer_name contract_name : String) :
    generated_insert_query_for_event event_info indexer_name contract_name =
      "INSERT INTO " ++ indexer_contract_schema_name indexer_name contract_name ++
      "." ++ camel_to_snake event_info.name ++ " (contract_address, " ++
      joinSep ", " (event_info.inputs.map (fun i => camel_to_snake i.name)) ++
      ", \"tx_hash\", \"block_number\", \"block_hash\") " ++
      ("VALUES(" ++
        joinSep ", " ((List.range (4 + event_info.inputs.length)).map
          (fun i => "$" ++ Nat.repr (i + 1))) ++ ")") ∧
    ((List.range (4 + event_info.inputs.length)).map
        (fun i => "$" ++ Nat.repr (i + 1))).length =
      1 + event_info.inputs.length + 3 := by
  constructor
  · simp only [generated_insert_query_for_event, generate_columns_names_only,
      generate_injected_param, List.length_map]
  · simp only [List.length_map, List.length_range]
    omega

/-! ## Helper lemmas: the `batch_insert` transaction loop -/

theorem txLoop_trace_execs {σ π ε : Type} (exec : σ → π → Except ε σ) :
    ∀ (ps : List π) (s : σ), ∀ ev ∈ (txLoop exec ps s).2, isExecEvent ev = true := by
  intro ps
  induction ps with
  | nil => intro s ev hev; simp [txLoop] at hev
  | cons p rest ih =>
    intro s ev hev
    simp only [txLoop] at hev
    cases hx : exec s p with
    | ok s2 =>
      rw [hx] at hev
      simp only [List.mem_cons] at hev
      rcases hev with hev | hev
      · subst hev; rfl
      · exact ih s2 ev hev
    | error e =>
      rw [hx] at hev
      simp only [List.mem_singleton] at hev
      subst hev; rfl

theorem txLoop_of_applyAllOk {σ π ε : Type} (exec : σ → π → Except ε σ) :
    ∀ (ps : List π) (s s2 : σ), applyAllOk exec ps s = some s2 →
      txLoop exec ps s = (.ok s2, ps.map TxEvent.exec) := by
  intro ps
  induction ps with
  | nil =>
    intro s s2 h
    simp only [applyAllOk, Option.some_inj] at h
    subst h; rfl
  | cons p rest ih =>
    intro s s2 h
    simp only [applyAllOk] at h
    cases hx : exec s p with
    | ok s3 =>
      rw [hx] at h
      simp only [txLoop, hx, ih s3 s2 h, List.map_cons]
    | error e => rw [hx] at h; simp at h

theorem txLoop_error_of_applyAllOk_none {σ π ε : Type}
    (exec : σ → π → Except ε σ) :
    ∀ (ps : List π) (s : σ), applyAllOk exec ps s = none →
      ∃ e, (txLoop exec ps s).1 = .error e := by
  intro ps
  induction ps with
  | nil => intro s h; simp [applyAllOk] at h
  | cons p rest ih =>
    intro s h
    simp only [applyAllOk] at h
    cases hx : exec s p with
    | ok s3 =>
      rw [hx] at h
      obtain ⟨e, he⟩ := ih s3 h
      exact ⟨e, by simp [txLoop, hx, he]⟩
    | error e => exact ⟨e, by simp [txLoop, hx]⟩

/-! ## Claim C1 -/

/-- C1: `batch_insert` opens exactly one transaction per call; when
every execution succeeds it commits, the visible state is the
sequential effect of the parameter sets in input order and the trace
executes the statement once per parameter set in that order; when any
execution fails the error is surfaced, no commit happens, and the
visible state is exactly the pre-call state (all-or-nothing). -/
theorem C1_batch_insert_all_or_nothing {σ π ε : Type}
    (exec : σ → π → Except ε σ) (s : σ) (params_list : List π) :
    ((batch_insert exec s params_list).2.2.countP isBeginTx = 1) ∧
    (∀ s2, applyAllOk exec params_list s = some s2 →
      batch_insert exec s params_list =
        (.ok (), s2, .beginTx :: params_list.map TxEvent.exec ++ [.commit])) ∧
    (applyAllOk exec params_list s = none →
      (∃ e, (batch_insert exec s params_list).1 = .error e) ∧
      (batch_insert exec s params_list).2.1 = s ∧
      TxEvent.commit ∉ (batch_insert exec s params_list).2.2) := by
  refine ⟨?_, ?_, ?_⟩
  · have hexecs := txLoop_trace_execs exec params_list s
    have hcount : (txLoop exec params_list s).2.countP isBeginTx = 0 := by
      rw [List.countP_eq_zero]
      intro ev hev
      have := hexecs ev hev
      cases ev <;> simp_all [isExecEvent, isBeginTx]
    unfold batch_insert
    cases hr : (txLoop exec params_list s).1 <;>
      simp_all [List.countP_cons, List.countP_append, isBeginTx]
  · intro s2 h
    have := txLoop_of_applyAllOk exec params_list s s2 h
    simp [batch_insert, this]
  · intro h
    obtain ⟨e, he⟩ := txLoop_error_of_applyAllOk_none exec params_list s h
    have hexecs := txLoop_trace_execs exec params_list s
    refine ⟨⟨e, ?_⟩, ?_, ?_⟩
    · simp [batch_insert, he]
    · simp [batch_insert, he]
    · simp only [batch_insert, he]
      intro hmem
      simp only [List.mem_cons] at hmem
      rcases hmem with hmem | hmem
      · exact absurd hmem.symm (by simp)
      · have := hexecs _ hmem
        simp [isExecEvent] at this

/-- Witness for C1: a successful two-row batch commits the sequential
state with the full trace, and a batch whose middle parameter set fails
leaves the pre-call state visible. -/
theorem C1_batch_insert_witness :
    (applyAllOk execAddPos [1, 2] 0 = some 3 ∧
      batch_insert execAddPos 0 [1, 2] =
        (.ok (), 3, [.beginTx, .exec 1, .exec 2, .commit])) ∧
    (applyAllOk execAddPos [1, 0, 2] 0 = none ∧
      (batch_insert execAddPos 0 [1, 0, 2]).2.1 = 0) := by
  refine ⟨⟨rfl, ?_⟩, rfl, ?_⟩
  · exact (C1_batch_insert_all_or_nothing execAddPos 0 [1, 2]).2.1 3 rfl
  · exact ((C1_batch_insert_all_or_nothing execAddPos 0 [1, 0, 2]).2.2 rfl).2.1

/-! ## Helper lemmas: array-marker trimming -/

theorem revMarkers_append_pair (k : Nat) :
    revMarkers k ++ [']', '['] = ']' :: '[' :: revMarkers k := by
  induction k with
  | zero => rfl
  | succ k ih => simp [revMarkers, ih]

theorem arrMarkers_reverse (k : Nat) :
    (arrMarkers k).reverse = revMarkers k := by
  induction k with
  | zero => rfl
  | succ k ih =>
    simp only [arrMarkers, List.reverse_cons, List.append_assoc, ih]
    simpa using revMarkers_append_pair k

theorem trimArrAux_revMarkers (k : Nat) (l : List Char) :
    trimArrAux (revMarkers k ++ l) = trimArrAux l := by
  induction k with
  | zero => rfl
  | succ k ih => simp [revMarkers, trimArrAux, ih]

theorem trimArrAux_eq_self (l : List Char) (h : endsArrRev l = false) :
    trimArrAux l = l := by
  match l with
  | [] => rfl
  | [c] => rfl
  | c1 :: c2 :: rest =>
    have hc : ¬(c1 = ']' ∧ c2 = '[') := by
      rintro ⟨rfl, rfl⟩
      exact Bool.noConfusion h
    simp only [trimArrAux, if_neg hc]

theorem trimArrAux_append_keeps (w : List Char)
    (h1 : w.head? ≠ some ']') (h2 : w.head? ≠ some '[') :
    ∀ u : List Char, ∃ v, trimArrAux (u ++ w) = v ++ w := by
  have H : ∀ n (u : List Char), u.length = n →
      ∃ v, trimArrAux (u ++ w) = v ++ w := by
    intro n
    induction n using Nat.strong_induction_on with
    | _ n ih =>
      intro u hn
      match u with
      | [] =>
        refine ⟨[], ?_⟩
        match w with
        | [] => rfl
        | [c] => rfl
        | c1 :: c2 :: rest =>
          have hc : ¬(c1 = ']' ∧ c2 = '[') := by
            rintro ⟨rfl, rfl⟩
            exact h1 rfl
          simp only [List.nil_append, trimArrAux, if_neg hc]
      | [c] =>
        refine ⟨[c], ?_⟩
        match w with
        | [] => rfl
        | c2 :: rest =>
          have hc : ¬(c = ']' ∧ c2 = '[') := by
            rintro ⟨rfl, rfl⟩
            exact h2 rfl
          simp only [List.cons_append, List.nil_append, trimArrAux, if_neg hc]
      | c1 :: c2 :: u2 =>
        by_cases hc : c1 = ']' ∧ c2 = '['
        · have hlen : u2.length < n := by
            simp only [List.length_cons] at hn
            omega
          obtain ⟨v, hv⟩ := ih u2.length hlen u2 rfl
          refine ⟨v, ?_⟩
          simp only [List.cons_append, trimArrAux, if_pos hc]
          exact hv
        · refine ⟨c1 :: c2 :: u2, ?_⟩
          simp only [List.cons_append, trimArrAux, if_neg hc]
          rfl
  intro u
  exact H u.length u rfl

theorem starts_with_bytes_trimArr (t : String)
    (h : starts_with_bytes t = true) :
    starts_with_bytes (trimArr t) = true := by
  unfold starts_with_bytes at h ⊢
  rw [List.isPrefixOf_iff_prefix] at h ⊢
  obtain ⟨q, hq⟩ := h
  have hw1 : ("bytes".data.reverse).head? ≠ some ']' := by decide
  have hw2 : ("bytes".data.reverse).head? ≠ some '[' := by decide
  obtain ⟨v, hv⟩ := trimArrAux_append_keeps "bytes".data.reverse hw1 hw2 q.reverse
  have hdata : (trimArr t).data = (trimArrAux t.data.reverse).reverse := rfl
  rw [hdata, ← hq, List.reverse_append, hv, List.reverse_append,
    List.reverse_reverse]
  exact ⟨v.reverse, rfl⟩

theorem trimArr_appendArrMarkers (s : String) (k : Nat)
    (h : ends_with_arr s = false) :
    trimArr (appendArrMarkers s k) = s := by
  unfold ends_with_arr at h
  unfold trimArr appendArrMarkers
  have hdata : (String.mk (s.data ++ arrMarkers k)).data =
      s.data ++ arrMarkers k := rfl
  rw [hdata, List.reverse_append, arrMarkers_reverse, trimArrAux_revMarkers,
    trimArrAux_eq_self _ h, List.reverse_reverse]

theorem ends_with_arr_appendArrMarkers (s : String) (k : Nat) :
    ends_with_arr (appendArrMarkers s (k + 1)) = true := by
  unfold ends_with_arr appendArrMarkers
  have hdata : (String.mk (s.data ++ arrMarkers (k + 1))).data =
      s.data ++ arrMarkers (k + 1) := rfl
  rw [hdata, List.reverse_append, arrMarkers_reverse]
  rfl

/-! ## Claim C10 -/

/-- C10: for every base type and every nesting depth `k ≥ 1`,
`solidity_type_to_db_type` strips all `k` trailing array markers and
appends exactly one `[]` to the base column type, so every nesting
depth maps to the same single-dimension array column type. -/
theorem C10_nested_arrays_single_dimension (base : String) (k : Nat)
    (hb : ends_with_arr base = false) (hk : 1 ≤ k) :
    solidity_type_to_db_type (appendArrMarkers base k) =
      (solidity_base_type_to_db_type base).map (fun sql => sql ++ "[]") := by
  obtain ⟨j, rfl⟩ : ∃ j, k = j + 1 := ⟨k - 1, by omega⟩
  simp only [solidity_type_to_db_type, trimArr_appendArrMarkers base (j + 1) hb,
    ends_with_arr_appendArrMarkers base j, if_true]

/-- Witness for C10 at `uint256[][]` (depth 2): it maps to the
single-dimension `VARCHAR(78)[]`. -/
theorem C10_nested_arrays_witness :
    ends_with_arr "uint256" = false ∧
    appendArrMarkers "uint256" 2 = "uint256[][]" ∧
    solidity_type_to_db_type (appendArrMarkers "uint256" 2) =
      (solidity_base_type_to_db_type "uint256").map (fun sql => sql ++ "[]") ∧
    solidity_type_to_db_type "uint256[][]" = some "VARCHAR(78)[]" := by
  refine ⟨by decide, by decide,
    C10_nested_arrays_single_dimension "uint256" 2 (by decide) (by omega),
    by decide⟩

/-! ## Helper lemmas: supported sets of the two type mappers -/

theorem base_db_type_isSome_iff (b : String) :
    (solidity_base_type_to_db_type b).isSome = true ↔
      (b ∈ nonBytesBaseTypes ∨ starts_with_bytes b = true) := by
  unfold solidity_base_type_to_db_type
  split_ifs with h1 h2 h3 h4 h5 h6 h7 h8 <;>
    (try simp_all [nonBytesBaseTypes]) <;> tauto

theorem db_type_isSome_eq_base (t : String) :
    (solidity_type_to_db_type t).isSome =
      (solidity_base_type_to_db_type (trimArr t)).isSome := by
  simp only [solidity_type_to_db_type]
  cases solidity_base_type_to_db_type (trimArr t) <;> rfl

theorem wrapper_isSome_implies_db (t : String)
    (h : (solidity_type_to_ethereum_sql_type_wrapper t).isSome = true) :
    (solidity_type_to_db_type t).isSome = true := by
  rw [db_type_isSome_eq_base, base_db_type_isSome_iff]
  unfold solidity_type_to_ethereum_sql_type_wrapper at h
  by_cases c1 : t = "string"
  · subst c1; left; decide
  rw [if_neg c1] at h
  by_cases c2 : t = "string[]"
  · subst c2; left; decide
  rw [if_neg c2] at h
  by_cases c3 : t = "address"
  · subst c3; left; decide
  rw [if_neg c3] at h
  by_cases c4 : t = "address[]"
  · subst c4; left; decide
  rw [if_neg c4] at h
  by_cases c5 : t = "bool"
  · subst c5; left; decide
  rw [if_neg c5] at h
  by_cases c6 : t = "bool[]"
  · subst c6; left; decide
  rw [if_neg c6] at h
  by_cases c7 : t = "int256" ∨ t = "uint256"
  · rcases c7 with rfl | rfl <;> (left; decide)
  rw [if_neg c7] at h
  by_cases c8 : t = "int256[]" ∨ t = "uint256[]"
  · rcases c8 with rfl | rfl <;> (left; decide)
  rw [if_neg c8] at h
  by_cases c9 : t = "int128" ∨ t = "uint128"
  · rcases c9 with rfl | rfl <;> (left; decide)
  rw [if_neg c9] at h
  by_cases c10 : t = "int128[]" ∨ t = "uint128[]"
  · rcases c10 with rfl | rfl <;> (left; decide)
  rw [if_neg c10] at h
  by_cases c11 : t = "int64" ∨ t = "uint64"
  · rcases c11 with rfl | rfl <;> (left; decide)
  rw [if_neg c11] at h
  by_cases c12 : t = "int64[]" ∨ t = "uint64[]"
  · rcases c12 with rfl | rfl <;> (left; decide)
  rw [if_neg c12] at h
  by_cases c13 : t = "int32" ∨ t = "uint32"
  · rcases c13 with rfl | rfl <;> (left; decide)
  rw [if_neg c13] at h
  by_cases c14 : t = "int32[]" ∨ t = "uint32[]"
  · rcases c14 with rfl | rfl <;> (left; decide)
  rw [if_neg c14] at h
  by_cases c15 : t = "int16" ∨ t = "uint16"
  · rcases c15 with rfl | rfl <;> (left; decide)
  rw [if_neg c15] at h
  by_cases c16 : t = "int16[]" ∨ t = "uint16[]"
  · rcases c16 with rfl | rfl <;> (left; decide)
  rw [if_neg c16] at h
  by_cases c17 : t = "int8" ∨ t = "uint8"
  · rcases c17 with rfl | rfl <;> (left; decide)
  rw [if_neg c17] at h
  by_cases c18 : t = "int8[]" ∨ t = "uint8[]"
  · rcases c18 with rfl | rfl <;> (left; decide)
  rw [if_neg c18] at h
  by_cases c19 : starts_with_bytes t = true ∧ contains_arr t = true
  · exact Or.inr (starts_with_bytes_trimArr t c19.1)
  rw [if_neg c19] at h
  by_cases c20 : starts_with_bytes t = true
  · exact Or.inr (starts_with_bytes_trimArr t c20)
  rw [if_neg c20] at h
  exact Bool.noConfusion h

theorem wrapper_bytes_isSome (t : String) (h : starts_with_bytes t = true) :
    (solidity_type_to_ethereum_sql_type_wrapper t).isSome = true := by
  unfold solidity_type_to_ethereum_sql_type_wrapper
  by_cases c1 : t = "string"
  · rw [if_pos c1]; rfl
  rw [if_neg c1]
  by_cases c2 : t = "string[]"
  · rw [if_pos c2]; rfl
  rw [if_neg c2]
  by_cases c3 : t = "address"
  · rw [if_pos c3]; rfl
  rw [if_neg c3]
  by_cases c4 : t = "address[]"
  · rw [if_pos c4]; rfl
  rw [if_neg c4]
  by_cases c5 : t = "bool"
  · rw [if_pos c5]; rfl
  rw [if_neg c5]
  by_cases c6 : t = "bool[]"
  · rw [if_pos c6]; rfl
  rw [if_neg c6]
  by_cases c7 : t = "int256" ∨ t = "uint256"
  · rw [if_pos c7]; rfl
  rw [if_neg c7]
  by_cases c8 : t = "int256[]" ∨ t = "uint256[]"
  · rw [if_pos c8]; rfl
  rw [if_neg c8]
  by_cases c9 : t = "int128" ∨ t = "uint128"
  · rw [if_pos c9]; rfl
  rw [if_neg c9]
  by_cases c10 : t = "int128[]" ∨ t = "uint128[]"
  · rw [if_pos c10]; rfl
  rw [if_neg c10]
  by_cases c11 : t = "int64" ∨ t = "uint64"
  · rw [if_pos c11]; rfl
  rw [if_neg c11]
  by_cases c12 : t = "int64[]" ∨ t = "uint64[]"
  · rw [if_pos c12]; rfl
  rw [if_neg c12]
  by_cases c13 : t = "int32" ∨ t = "uint32"
  · rw [if_pos c13]; rfl
  rw [if_neg c13]
  by_cases c14 : t = "int32[]" ∨ t = "uint32[]"
  · rw [if_pos c14]; rfl
  rw [if_neg c14]
  by_cases c15 : t = "int16" ∨ t = "uint16"
  · rw [if_pos c15]; rfl
  rw [if_neg c15]
  by_cases c16 : t = "int16[]" ∨ t = "uint16[]"
  · rw [if_pos c16]; rfl
  rw [if_neg c16]
  by_cases c17 : t = "int8" ∨ t = "uint8"
  · rw [if_pos c17]; rfl
  rw [if_neg c17]
  by_cases c18 : t = "int8[]" ∨ t = "uint8[]"
  · rw [if_pos c18]; rfl
  rw [if_neg c18]
  by_cases c19 : starts_with_bytes t = true ∧ contains_arr t = true
  · rw [if_pos c19]; rfl
  rw [if_neg c19, if_pos h]
  rfl

/-! ## Claim C5 -/

/-- C5 counterexample: at the explicit input `uint256[][]` the
column-type mapping succeeds while the value-variant mapping fails, so
there is no single supported set for which both mappings succeed inside
it and both fail outside it, as the claim states. -/
theorem C5_single_supported_set_counterexample :
    (solidity_type_to_db_type "uint256[][]").isSome = true ∧
    solidity_type_to_ethereum_sql_type_wrapper "uint256[][]" = none := by
  refine ⟨by decide, by decide⟩

/-- C5 (amended): each mapping fails outside its own supported set
rather than approximating, but the two sets differ on nested arrays:
`solidity_type_to_db_type` succeeds exactly when the fully-stripped
base type is supported (any nesting depth), while the value-variant
mapping succeeds only on supported base types with at most one array
level (plus the whole `bytes*` family); wrapper support implies
column-type support, not conversely. -/
theorem C5_supported_sets_amended (t : String) :
    ((solidity_type_to_db_type t).isSome = true ↔
      (trimArr t ∈ nonBytesBaseTypes ∨ starts_with_bytes (trimArr t) = true)) ∧
    ((solidity_type_to_ethereum_sql_type_wrapper t).isSome = true →
      (solidity_type_to_db_type t).isSome = true) ∧
    (starts_with_bytes t = true →
      (solidity_type_to_ethereum_sql_type_wrapper t).isSome = true) ∧
    (∀ b ∈ nonBytesBaseTypes,
      (solidity_type_to_ethereum_sql_type_wrapper b).isSome = true ∧
      (solidity_type_to_ethereum_sql_type_wrapper (b ++ "[]")).isSome = true ∧
      solidity_type_to_ethereum_sql_type_wrapper (b ++ "[]" ++ "[]") = none) := by
  refine ⟨?_, wrapper_isSome_implies_db t, wrapper_bytes_isSome t, by decide⟩
  rw [db_type_isSome_eq_base, base_db_type_isSome_iff]

/-- Witness for C5 (amended), at `bytes32` and `uint64`. -/
theorem C5_supported_sets_witness :
    (starts_with_bytes "bytes32" = true ∧
      (solidity_type_to_ethereum_sql_type_wrapper "bytes32").isSome = true) ∧
    (solidity_type_to_db_type "uint64").isSome = true :=
  ⟨⟨by decide, (C5_supported_sets_amended "bytes32").2.2.1 (by decide)⟩,
    (C5_supported_sets_amended "uint64").2.1 (by decide)⟩

/-! ## Helper lemmas: filter counting -/

theorem countFilterDetails_eq_countP (details : List ContractDetails)
    (h : ∀ d ∈ details, d.indexing_contract_setup.isSome = true) :
    countFilterDetails details = some (details.countP detailIsFilterLike) := by
  induction details with
  | nil => rfl
  | cons d rest ih =>
    have hd := h d (by simp)
    cases hs : d.indexing_contract_setup with
    | none => rw [hs] at hd; simp at hd
    | some s =>
      have hrest := ih (fun x hx => h x (by simp [hx]))
      simp only [countFilterDetails, hs, hrest, Option.map_some',
        List.countP_cons, detailIsFilterLike]
      by_cases hf : s.is_filter = true <;> simp [hf]

/-! ## Claim C9 -/

/-- C9 counterexample: `mixedModeContract` has two bindings with two
different discovery modes (filter-based and factory-based), yet loading
does not fail: `identify_filter` succeeds and suffixes the name. -/
theorem C9_mixed_modes_counterexample :
    filterModeDetail.indexing_contract_setup =
      some (.filter { event_name := "Transfer", indexed_1 := none,
                      indexed_2 := none, indexed_3 := none }) ∧
    factoryModeDetail.indexing_contract_setup =
      some (.factory { address := "0xFFFF", event_name := "PairCreated",
                       parameter_name := "pair", abi := "[]" }) ∧
    mixedModeContract.details = [filterModeDetail, factoryModeDetail] ∧
    identify_filter mixedModeContract =
      .ok ({ mixedModeContract with name := "TokenFilter" }, true) := by
  refine ⟨rfl, rfl, rfl, rfl⟩

/-- C9 (amended): `identify_filter` rejects a contract exactly when it
mixes filter-like (filter- or factory-mode) bindings with non-filter
(address-mode) bindings; a contract whose bindings are all filter-like
— including one mixing filter-mode with factory-mode — is accepted
with the name suffixed "Filter", and an all-address contract is
accepted unchanged. -/
theorem C9_identify_filter_amended (contract : Contract)
    (h : ∀ d ∈ contract.details, d.indexing_contract_setup.isSome = true) :
    (0 < contract.details.countP detailIsFilterLike ∧
        contract.details.countP detailIsFilterLike < contract.details.length →
      identify_filter contract =
        .error "Cannot mix and match address and filter for the same contract definition.") ∧
    (contract.details.countP detailIsFilterLike = contract.details.length ∧
        0 < contract.details.length →
      identify_filter contract =
        .ok ({ contract with name := contract.name ++ "Filter" }, true)) ∧
    (contract.details.countP detailIsFilterLike = 0 →
      identify_filter contract = .ok (contract, false)) := by
  have hc := countFilterDetails_eq_countP contract.details h
  refine ⟨fun ⟨h1, h2⟩ => ?_, fun ⟨h1, h2⟩ => ?_, fun h1 => ?_⟩
  · simp only [identify_filter, hc]
    rw [if_pos ⟨h1, by omega⟩]
  · simp only [identify_filter, hc]
    rw [if_neg (by omega), if_pos (by omega)]
  · simp only [identify_filter, hc]
    rw [if_neg (by omega), if_neg (by omega)]

/-- Witness for C9 (amended): an address+filter mix panics, an
all-filter contract is renamed, an all-address contract is accepted
unchanged. -/
theorem C9_identify_filter_witness :
    identify_filter mixedAddressFilterContract =
      .error "Cannot mix and match address and filter for the same contract definition." ∧
    identify_filter allFilterContract =
      .ok ({ allFilterContract with name := "TokenFilter" }, true) ∧
    identify_filter tokenContract = .ok (tokenContract, false) := by
  refine ⟨?_, ?_, ?_⟩
  · exact (C9_identify_filter_amended mixedAddressFilterContract
      (by decide)).1 ⟨by decide, by decide⟩
  · exact (C9_identify_filter_amended allFilterContract
      (by decide)).2.1 ⟨by decide, by decide⟩
  · exact (C9_identify_filter_amended tokenContract (by decide)).2.2 (by decide)

/-! ## Helper lemmas: linking the generated SQL text to its statement
list -/

theorem string_data_append (a b : String) :
    (a ++ b).data = a.data ++ b.data := rfl

theorem string_append_assoc (a b c : String) :
    a ++ b ++ c = a ++ (b ++ c) :=
  congrArg String.mk (List.append_assoc a.data b.data c.data)

theorem stripData_append (a b : String) :
    stripData (a ++ b) = stripData a ++ stripData b := by
  simp [stripData, string_data_append, List.filter_append]

theorem stripData_nl : stripData "\n" = [] := by decide

theorem stripData_joinSep (l : List String) :
    stripData (joinSep "\n" l) = (l.map stripData).join := by
  induction l with
  | nil => rfl
  | cons s rest ih =>
    cases rest with
    | nil => simp [joinSep, List.join]
    | cons r r2 =>
      rw [show joinSep "\n" (s :: r :: r2) = s ++ "\n" ++ joinSep "\n" (r :: r2)
          from rfl,
        stripData_append, stripData_append, ih]
      simp [stripData_nl, List.join]

theorem scriptStrip_nil : scriptStrip [] = [] := rfl

theorem scriptStrip_cons (c : SqlStmt) (l : List SqlStmt) :
    scriptStrip (c :: l) = stmtStrip c ++ scriptStrip l := by
  simp [scriptStrip, List.join]

theorem scriptStrip_append (l1 l2 : List SqlStmt) :
    scriptStrip (l1 ++ l2) = scriptStrip l1 ++ scriptStrip l2 := by
  simp [scriptStrip, List.map_append, List.join_append]

theorem scriptStrip_flatMap {α : Type} (g : α → List SqlStmt) (l : List α) :
    scriptStrip (l.flatMap g) = (l.map (fun a => scriptStrip (g a))).join := by
  induction l with
  | nil => rfl
  | cons a rest ih =>
    rw [show (a :: rest).flatMap g = g a ++ rest.flatMap g from rfl,
      scriptStrip_append, ih]
    simp [List.join]

theorem event_table_sql_render (sch : String) (e : EventInfo) :
    event_table_sql sch e = renderStmt (event_table_stmt sch e) := by
  simp only [event_table_sql, renderStmt, event_table_stmt,
    string_append_assoc]

theorem map_congr_fun {α β : Type} (f g : α → β) (l : List α)
    (h : ∀ a, f a = g a) : l.map f = l.map g := by
  induction l with
  | nil => rfl
  | cons a rest ih => simp [h a, ih]

theorem generate_event_table_sql_strip (evs : List EventInfo) (sch : String) :
    stripData (generate_event_table_sql evs sch) =
      scriptStrip (evs.map (event_table_stmt sch)) := by
  rw [generate_event_table_sql, stripData_joinSep]
  simp only [scriptStrip, List.map_map]
  exact congrArg List.flatten
    (map_congr_fun _ _ evs
      (fun e => congrArg stripData (event_table_sql_render sch e)))

theorem internal_chunk_strip (sch : String) (nets : List String)
    (e : EventInfo) :
    stripData (internal_create_table_query (internal_table_name sch e) ++ "\n" ++
        joinSep "\n" (nets.map (internal_insert_query (internal_table_name sch e)))) =
      scriptStrip (internal_event_stmts sch nets e) := by
  rw [stripData_append, stripData_append, stripData_nl, stripData_joinSep]
  simp only [internal_event_stmts, scriptStrip_cons, List.append_nil,
    List.map_map]
  congr 1
  simp only [scriptStrip, List.map_map]
  exact congrArg List.flatten (map_congr_fun _ _ nets (fun n => rfl))

theorem generate_internal_event_table_sql_strip (evs : List EventInfo)
    (sch : String) (nets : List String) :
    stripData (generate_internal_event_table_sql evs sch nets) =
      scriptStrip (evs.flatMap (internal_event_stmts sch nets)) := by
  rw [generate_internal_event_table_sql, stripData_joinSep,
    scriptStrip_flatMap]
  simp only [List.map_map]
  exact congrArg List.flatten
    (map_congr_fun _ _ evs (fun e => internal_chunk_strip sch nets e))

theorem contract_tables_sql_strip (abi_events : Contract → Option (List EventInfo))
    (indexer_name : String) (contract : Contract) :
    stripData (contract_tables_sql abi_events indexer_name contract) =
      scriptStrip (contract_tables_stmts abi_events indexer_name contract) := by
  simp only [contract_tables_sql, contract_tables_stmts]
  cases h : abi_events contract with
  | none => rfl
  | some evs =>
    rw [stripData_append, stripData_append, scriptStrip_cons,
      scriptStrip_append, generate_event_table_sql_strip,
      generate_internal_event_table_sql_strip]
    simp [List.append_assoc]
    rfl

theorem stripData_foldl_append (f : Contract → String) :
    ∀ (l : List Contract) (init : String),
      stripData (l.foldl (fun sql c => sql ++ f c) init) =
        stripData init ++ (l.map (fun c => stripData (f c))).flatten := by
  intro l
  induction l with
  | nil => intro init; simp
  | cons c rest ih =>
    intro init
    rw [show (c :: rest).foldl (fun sql x => sql ++ f x) init =
        rest.foldl (fun sql x => sql ++ f x) (init ++ f c) from rfl,
      ih, stripData_append]
    simp [List.append_assoc]

theorem create_tables_sql_strip (abi_events : Contract → Option (List EventInfo))
    (indexer : Indexer) :
    stripData (create_tables_for_indexer_sql abi_events indexer) =
      scriptStrip (create_tables_stmts abi_events indexer) := by
  rw [create_tables_for_indexer_sql, stripData_foldl_append,
    create_tables_stmts, scriptStrip_cons, scriptStrip_flatMap]
  congr 1
  exact congrArg List.flatten
    (map_congr_fun _ _ indexer.contracts
      (fun c => contract_tables_sql_strip abi_events indexer.name c))

/-! ## Helper lemmas: idempotence of the DDL semantics -/

theorem applyStmt_of_established (s : DbState) (c : SqlStmt)
    (h : stmtEstablished s c = true) : applyStmt s c = s := by
  simp [applyStmt, h]

theorem established_applyStmt_self (s : DbState) (c : SqlStmt) :
    stmtEstablished (applyStmt s c) c = true := by
  by_cases h : stmtEstablished s c = true
  · rw [applyStmt_of_established s c h]; exact h
  · rw [applyStmt.eq_def, if_neg (by simp [h])]
    cases c <;> simp [stmtEstablished, List.map_append]

theorem established_mono (s : DbState) (c c' : SqlStmt)
    (h : stmtEstablished s c = true) :
    stmtEstablished (applyStmt s c') c = true := by
  rw [applyStmt.eq_def]
  split
  · exact h
  · cases c' <;> cases c <;>
      simp_all [stmtEstablished, List.map_append]

theorem established_applyStmts_mono (l : List SqlStmt) :
    ∀ (s : DbState) (c : SqlStmt), stmtEstablished s c = true →
      stmtEstablished (applyStmts s l) c = true := by
  induction l with
  | nil => intro s c h; exact h
  | cons d rest ih =>
    intro s c h
    exact ih (applyStmt s d) c (established_mono s c d h)

theorem all_established_applyStmts (l : List SqlStmt) :
    ∀ (s : DbState) (c : SqlStmt), c ∈ l →
      stmtEstablished (applyStmts s l) c = true := by
  induction l with
  | nil => intro s c h; simp at h
  | cons d rest ih =>
    intro s c h
    rcases List.mem_cons.mp h with rfl | h2
    · exact established_applyStmts_mono rest (applyStmt s c) c
        (established_applyStmt_self s c)
    · exact ih (applyStmt s d) c h2

theorem applyStmts_of_all_established (l : List SqlStmt) :
    ∀ (s : DbState), (∀ c ∈ l, stmtEstablished s c = true) →
      applyStmts s l = s := by
  induction l with
  | nil => intro s _; rfl
  | cons d rest ih =>
    intro s h
    have hd : applyStmt s d = s := applyStmt_of_established s d (h d (by simp))
    show applyStmts (applyStmt s d) rest = s
    rw [hd]
    exact ih s (fun c hc => h c (by simp [hc]))

theorem applyStmts_twice (s : DbState) (l : List SqlStmt) :
    applyStmts (applyStmts s l) l = applyStmts s l :=
  applyStmts_of_all_established l (applyStmts s l)
    (fun c hc => all_established_applyStmts l s c hc)

/-- The checkpoint-row invariant maintained by the semantics: distinct
(table, network) keys and every row's value 0. -/
theorem ckpt_invariant_applyStmts (l : List SqlStmt) :
    ∀ (s : DbState),
      (s.checkpoints.map Prod.fst).Nodup →
      (∀ r ∈ s.checkpoints, r.2 = 0) →
      ((applyStmts s l).checkpoints.map Prod.fst).Nodup ∧
      (∀ r ∈ (applyStmts s l).checkpoints, r.2 = 0) := by
  induction l with
  | nil => intro s h1 h2; exact ⟨h1, h2⟩
  | cons d rest ih =>
    intro s h1 h2
    have hstep : ((applyStmt s d).checkpoints.map Prod.fst).Nodup ∧
        ∀ r ∈ (applyStmt s d).checkpoints, r.2 = 0 := by
      rw [applyStmt.eq_def]
      split
      · exact ⟨h1, h2⟩
      · cases d with
        | createSchema n => exact ⟨h1, h2⟩
        | createEventTable a b cols => exact ⟨h1, h2⟩
        | createCheckpointTable t => exact ⟨h1, h2⟩
        | seedCheckpoint t n =>
          rename_i hne
          constructor
          · simp only [List.map_append]
            rw [List.nodup_append]
            refine ⟨h1, by simp, ?_⟩
            intro x hx
            simp only [List.map_cons, List.map_nil, List.mem_singleton]
            intro hx2
            subst hx2
            simp only [stmtEstablished, decide_eq_true_eq] at hne
            exact hne hx
          · intro r hr
            rcases List.mem_append.mp hr with hr | hr
            · exact h2 r hr
            · simp at hr; simp [hr]
    exact ih (applyStmt s d) hstep.1 hstep.2

/-! ## Claim C2 -/

/-- C2: the schema-creation DDL is idempotent.  The generated text is,
up to newline separators, exactly the renders of its statement list in
order (every statement a `CREATE ... IF NOT EXISTS` or
`INSERT ... ON CONFLICT DO NOTHING`); applying that statement list
twice from an empty database yields the same final state as applying it
once (the second application is error-free by construction of the
existence-guarded semantics), and the checkpoint rows of the resulting
state have pairwise-distinct (table, network) keys — no duplicate seed
rows — with every seed value 0. -/
theorem C2_schema_ddl_idempotent
    (abi_events : Contract → Option (List EventInfo)) (indexer : Indexer) :
    stripData (create_tables_for_indexer_sql abi_events indexer) =
      scriptStrip (create_tables_stmts abi_events indexer) ∧
    applyStmts (applyStmts emptyDb (create_tables_stmts abi_events indexer))
        (create_tables_stmts abi_events indexer) =
      applyStmts emptyDb (create_tables_stmts abi_events indexer) ∧
    ((applyStmts (applyStmts emptyDb (create_tables_stmts abi_events indexer))
        (create_tables_stmts abi_events indexer)).checkpoints.map
          Prod.fst).Nodup ∧
    ∀ r ∈ (applyStmts emptyDb
        (create_tables_stmts abi_events indexer)).checkpoints, r.2 = 0 := by
  have hinv := ckpt_invariant_applyStmts
    (create_tables_stmts abi_events indexer) emptyDb (by simp [emptyDb])
    (by simp [emptyDb])
  refine ⟨create_tables_sql_strip abi_events indexer,
    applyStmts_twice emptyDb _, ?_, hinv.2⟩
  rw [applyStmts_twice emptyDb _]
  exact hinv.1

/-! ## Helper lemmas: statement-order permutation -/

theorem perm_flatMap_congr {α β : Type} (f g : α → List β) (l : List α)
    (h : ∀ a, (f a).Perm (g a)) : (l.flatMap f).Perm (l.flatMap g) := by
  induction l with
  | nil => exact List.Perm.refl _
  | cons a rest ih =>
    rw [show (a :: rest).flatMap f = f a ++ rest.flatMap f from rfl,
      show (a :: rest).flatMap g = g a ++ rest.flatMap g from rfl]
    exact (h a).append ih

theorem perm_interleave {α β : Type} (f : α → β) (g : α → List β)
    (l : List α) :
    (l.flatMap (fun a => f a :: g a)).Perm (l.map f ++ l.flatMap g) := by
  induction l with
  | nil => exact List.Perm.refl _
  | cons a rest ih =>
    show (f a :: (g a ++ rest.flatMap _)).Perm
      ((f a :: rest.map f) ++ (g a ++ rest.flatMap g))
    rw [List.cons_append]
    refine List.Perm.cons _ ?_
    have h1 : (g a ++ rest.flatMap (fun a => f a :: g a)).Perm
        (g a ++ (rest.map f ++ rest.flatMap g)) :=
      List.Perm.append_left _ ih
    have h2 : (g a ++ (rest.map f ++ rest.flatMap g)).Perm
        ((rest.map f ++ rest.flatMap g) ++ g a) := List.perm_append_comm
    have h3 : ((rest.map f ++ rest.flatMap g) ++ g a).Perm
        (rest.map f ++ (g a ++ rest.flatMap g)) := by
      rw [List.append_assoc]
      exact List.Perm.append_left _ List.perm_append_comm
    exact (h1.trans h2).trans h3

/-! ## Claim C6 -/

/-- C6 counterexample: at the concrete two-event indexer, the emitted
DDL text is **not** the claimed per-event interleaving (event table
immediately followed by its checkpoint table and seeds): the second
event's table statement comes before the first event's checkpoint
statement. -/
theorem C6_interleaved_order_counterexample :
    stripData (create_tables_for_indexer_sql twoEventAbi twoEventIndexer) ≠
      scriptStrip (spec_interleaved_stmts twoEventAbi twoEventIndexer) := by
  decide

/-- C6 (amended): the DDL text is emitted as, in order: the internal
schema statement; then per contract its schema statement, then **all**
of that contract's event-table statements in event order (each with the
fixed columns around the event columns), then per event its
checkpoint-table statement immediately followed by one seed insert per
bound network with value 0 — the same statements the spec's per-event
interleaving describes, in a different order (the statement multiset is
a permutation of the spec's). -/
theorem C6_ddl_order_amended
    (abi_events : Contract → Option (List EventInfo)) (indexer : Indexer) :
    stripData (create_tables_for_indexer_sql abi_events indexer) =
      scriptStrip (create_tables_stmts abi_events indexer) ∧
    (spec_interleaved_stmts abi_events indexer).Perm
      (create_tables_stmts abi_events indexer) := by
  refine ⟨create_tables_sql_strip abi_events indexer, ?_⟩
  unfold spec_interleaved_stmts create_tables_stmts
  refine List.Perm.cons _
    (perm_flatMap_congr _ _ indexer.contracts (fun c => ?_))
  rw [contract_tables_stmts]
  cases h : abi_events c with
  | none => simp [h]
  | some evs =>
    simp only [h]
    exact List.Perm.cons _ (perm_interleave _ _ evs)
